import Mathlib

/-!
Shallow embedding of the MERN blog application's core (post lifecycle,
visibility/listing, like toggling, and the authentication middleware),
with theorems checking the natural-language specification against it.

Sources embedded:
- `server/src/models/Post.js` (schema, pre-save hook, virtuals);
- `server/src/controllers/postController.js` (getPosts, getPost,
  createPost, updatePost, deletePost, toggleLike, addComment);
- `server/src/middleware/auth.js` (authenticate, optionalAuth);
- `server/src/routes/posts.js` (express-validator rules);
- `server/src/utils/validation.js` (isValidObjectId).
-/

namespace Blog

/-- Post status enumeration: `enum: ['draft', 'published', 'archived']`. -/
inductive Status where
  | draft
  | published
  | archived
deriving DecidableEq, Repr

/-- User role: `'user' | 'admin'`. -/
inductive Role where
  | user
  | admin
deriving DecidableEq, Repr

/-- The slice of the User document the post/auth code reads. -/
structure UserT where
  id : String
  role : Role
  isActive : Bool
deriving DecidableEq, Repr

/-- An embedded Like subdocument: `{ user, createdAt }`. -/
structure Like where
  user : String
  createdAt : Nat
deriving DecidableEq, Repr

/-- An embedded Comment subdocument: `{ user, content, createdAt }`. -/
structure CommentDoc where
  user : String
  content : String
  createdAt : Nat
deriving DecidableEq, Repr

/-- A hexadecimal digit, as accepted by the ObjectId regex `[0-9a-fA-F]`. -/
def isHexDigit (c : Char) : Bool :=
  (Char.ofNat 48 ≤ c && c ≤ Char.ofNat 57) ||
  (Char.ofNat 97 ≤ c && c ≤ Char.ofNat 102) ||
  (Char.ofNat 65 ≤ c && c ≤ Char.ofNat 70)

/-- `utils/validation.js` isValidObjectId: the regex test
`/^[0-9a-fA-F]\x7b24\x7d$/.test(id)`. -/
def isValidObjectId (s : String) : Bool :=
  s.length == 24 && s.data.all isHexDigit

/-- A character kept verbatim by the slug regex `[^a-z0-9]+`:
a lowercase ASCII letter or a digit. -/
def isSlugKeep (c : Char) : Bool :=
  (Char.ofNat 97 ≤ c && c ≤ Char.ofNat 122) ||
  (Char.ofNat 48 ≤ c && c ≤ Char.ofNat 57)

/-- `.replace(/[^a-z0-9]+/g, '-')`: each maximal run of characters that
are not lowercase letters or digits becomes a single hyphen. The flag
records whether the previous character belonged to such a run. -/
def collapseAux : Bool → List Char → List Char
  | _, [] => []
  | inRun, c :: rest =>
    if isSlugKeep c then c :: collapseAux false rest
    else if inRun then collapseAux true rest
    else Char.ofNat 45 :: collapseAux true rest

/-- The full `.replace(/[^a-z0-9]+/g, '-')` pass. -/
def collapseRuns (l : List Char) : List Char := collapseAux false l

/-- Drop one leading hyphen, the effect of the `^-` alternative of
`.replace(/(^-|-$)/g, '')` on the collapsed form (which never holds two
consecutive hyphens). -/
def dropLeadDash : List Char → List Char
  | c :: rest => if c == Char.ofNat 45 then rest else c :: rest
  | [] => []

/-- Slug derivation from Post.js pre-save:
`title.toLowerCase().replace(/[^a-z0-9]+/g, '-').replace(/(^-|-$)/g, '')`. -/
def slugify (title : String) : String :=
  let lowered := title.data.map Char.toLower
  let collapsed := collapseRuns lowered
  ⟨(dropLeadDash (dropLeadDash collapsed).reverse).reverse⟩

/-- Case-insensitive substring test over char lists,
modelling `$regex: search, $options: 'i'` for a plain search term. -/
def hasSub (pat : List Char) : List Char → Bool
  | [] => pat.isEmpty
  | c :: t => pat.isPrefixOf (c :: t) || hasSub pat t

/-- Case-insensitive containment of `needle` inside `hay`. -/
def containsCI (hay needle : String) : Bool :=
  hasSub (needle.data.map Char.toLower) (hay.data.map Char.toLower)

/-- The Post document, from `models/Post.js`. The slug field is a plain
string whose empty value plays the role of the JS falsy unset slug in the
pre-save guard `!this.slug`; `publishedAt` is `none` while unset (a JS
Date object is always truthy once assigned). `createdAt`/`updatedAt` come
from `timestamps: true` and only feed sorting here. -/
structure Post where
  id : String
  title : String
  content : String
  author : String
  category : Option String
  tags : List String
  slug : String
  excerpt : String
  featuredImage : String
  status : Status
  publishedAt : Option Nat
  views : Nat
  likes : List Like
  comments : List CommentDoc
  createdAt : Nat
  updatedAt : Nat
deriving DecidableEq, Repr

/-- Virtual `likeCount`: `this.likes.length`. -/
def likeCount (p : Post) : Nat := p.likes.length

/-- Virtual `commentCount`: `this.comments.length`. -/
def commentCount (p : Post) : Nat := p.comments.length

/-- Instance method `isLikedByUser`:
`this.likes.some(like => like.user.toString() === userId.toString())`. -/
def isLikedByUser (p : Post) (userId : String) : Bool :=
  p.likes.any (fun like => like.user == userId)

/-- The `postSchema.pre('save')` hook. The two `isModified` flags are
supplied by each save site: mongoose marks a path modified exactly when an
assignment changed its value (and marks every set path on a new document).
First the slug branch (`isModified('title') && !this.slug`), then the
publishedAt branch
(`isModified('status') && status === 'published' && !this.publishedAt`). -/
def slugBranch (titleModified : Bool) (p : Post) : Post :=
  if titleModified && p.slug == "" then { p with slug := slugify p.title } else p

/-- Second statement of the pre-save hook:
`isModified('status') && status === 'published' && !publishedAt`. -/
def publishBranch (statusModified : Bool) (now : Nat) (p : Post) : Post :=
  if statusModified && p.status == Status.published && p.publishedAt == none
  then { p with publishedAt := some now } else p

def preSaveHook (titleModified statusModified : Bool) (now : Nat) (p : Post) : Post :=
  publishBranch statusModified now (slugBranch titleModified p)

/-- The persisted post collection; `Document.save()` on an existing
document rewrites the document with its id. -/
abbrev DB := List Post

/-- `Post.findOne`-style first match. -/
def findFirst (pred : Post → Bool) (db : DB) : Option Post :=
  List.find? pred db

/-- Store a saved document back into the collection by id. -/
def storeSaved (p : Post) (db : DB) : DB :=
  List.map (fun q => if q.id == p.id then p else q) db

/-- Admin test on an optional request identity:
`req.user && req.user.role === 'admin'`. -/
def isAdminReq (requester : Option UserT) : Bool :=
  match requester with
  | some u => u.role == Role.admin
  | none => false

/-- Sort fields accepted by `getPostsValidation`. -/
inductive SortField where
  | createdAt
  | updatedAt
  | title
  | views
  | publishedAt
deriving DecidableEq, Repr

/-- Sort direction; `desc` maps to mongo `-1`, `asc` to `1`. -/
inductive SortOrder where
  | asc
  | desc
deriving DecidableEq, Repr

/-- Query parameters of `GET /api/posts` after express parsing; `none`
is an absent parameter, for which the controller destructuring supplies
the defaults `page = 1, limit = 10, sortBy = 'createdAt',
sortOrder = 'desc'`. -/
structure PostsQuery where
  page : Option Nat
  limit : Option Nat
  status : Option Status
  category : Option String
  author : Option String
  search : Option String
  sortBy : Option SortField
  sortOrder : Option SortOrder
deriving Repr

/-- `getPostsValidation` from `routes/posts.js`: optional page
`isInt(min 1)`, optional limit `isInt(min 1, max 100)`, optional
category/author `isMongoId()`; the enum-valued fields are already
well-typed here. -/
def getPostsValidation (q : PostsQuery) : Bool :=
  (match q.page with | some n => 1 ≤ n | none => true) &&
  (match q.limit with | some n => 1 ≤ n && n ≤ 100 | none => true) &&
  (match q.category with | some c => isValidObjectId c | none => true) &&
  (match q.author with | some a => isValidObjectId a | none => true)

/-- Comparison key for one sort field; a missing `publishedAt` sorts as 0. -/
def postCmp (f : SortField) (a b : Post) : Ordering :=
  match f with
  | SortField.createdAt => compare a.createdAt b.createdAt
  | SortField.updatedAt => compare a.updatedAt b.updatedAt
  | SortField.title => compare a.title b.title
  | SortField.views => compare a.views b.views
  | SortField.publishedAt => compare (a.publishedAt.getD 0) (b.publishedAt.getD 0)

/-- `a` may stay before `b` under the requested order. -/
def sortLE (f : SortField) (o : SortOrder) (a b : Post) : Bool :=
  match o with
  | SortOrder.asc => !(postCmp f a b == Ordering.gt)
  | SortOrder.desc => !(postCmp f a b == Ordering.lt)

/-- Stable insertion used to model the store's `sort(sortObject)`. -/
def insertSorted (le : Post → Post → Bool) (p : Post) : List Post → List Post
  | [] => [p]
  | q :: rest => if le p q then p :: q :: rest else q :: insertSorted le p rest

/-- Deterministic model of the store's sorting of the matched posts. -/
def sortPosts (f : SortField) (o : SortOrder) (l : List Post) : List Post :=
  List.foldr (insertSorted (sortLE f o)) [] l

/-- The find query `getPosts` builds: status filter (explicit `status`
param wins; otherwise non-admin requesters are forced to
`status: 'published'`), category/author equality guarded by
`isValidObjectId`, and the `$or` regex search over title, content and
tags. -/
def getPostsQueryPred (requester : Option UserT) (q : PostsQuery) (p : Post) : Bool :=
  (match q.status with
   | some s => p.status == s
   | none => if isAdminReq requester then true else p.status == Status.published) &&
  (match q.category with
   | some c => if isValidObjectId c then p.category == some c else true
   | none => true) &&
  (match q.author with
   | some a => if isValidObjectId a then p.author == a else true
   | none => true) &&
  (match q.search with
   | some s => containsCI p.title s || containsCI p.content s ||
       p.tags.any (fun t => containsCI t s)
   | none => true)

/-- The pagination object `getPosts` responds with. -/
structure Pagination where
  currentPage : Nat
  totalPages : Nat
  totalPosts : Nat
  hasNextPage : Bool
  hasPrevPage : Bool
  limit : Nat
deriving DecidableEq, Repr

/-- `getPosts` from `postController.js`: build the query, sort, then
`skip((page - 1) * limit).limit(limit)`, and compute
`totalPages = ceil(total / limit)`, `hasNextPage = page < totalPages`,
`hasPrevPage = page > 1`. -/
def getPosts (db : DB) (requester : Option UserT) (q : PostsQuery) :
    List Post × Pagination :=
  let page := q.page.getD 1
  let limit := q.limit.getD 10
  let matched := List.filter (getPostsQueryPred requester q) db
  let sorted := sortPosts (q.sortBy.getD SortField.createdAt)
    (q.sortOrder.getD SortOrder.desc) matched
  let skip := (page - 1) * limit
  let posts := (sorted.drop skip).take limit
  let total := matched.length
  let totalPages := (total + limit - 1) / limit
  (posts,
   { currentPage := page
     totalPages := totalPages
     totalPosts := total
     hasNextPage := decide (page < totalPages)
     hasPrevPage := decide (page > 1)
     limit := limit })

/-- The findOne query `getPost` builds for `GET /api/posts/:identifier`:
match by `_id` when the identifier is a well-formed ObjectId, otherwise by
`slug`; non-admin requesters additionally get `status: 'published'`. -/
def getPostQueryPred (requester : Option UserT) (identifier : String) (p : Post) : Bool :=
  (if isValidObjectId identifier then p.id == identifier else p.slug == identifier) &&
  (if isAdminReq requester then true else p.status == Status.published)

/-- Outcome of `getPost`. -/
inductive GetResult where
  | notFound
  | ok (post : Post)
deriving DecidableEq, Repr

/-- `getPost` from `postController.js`: findOne with the visibility query;
404 when absent; otherwise `post.views += 1; await post.save()` (the
pre-save hook runs with neither title nor status modified) and respond
with the post. -/
def getPost (db : DB) (requester : Option UserT) (identifier : String) (now : Nat) :
    GetResult × DB :=
  match findFirst (getPostQueryPred requester identifier) db with
  | none => (GetResult.notFound, db)
  | some post =>
    let saved := preSaveHook false false now { post with views := post.views + 1 }
    (GetResult.ok saved, storeSaved saved db)

/-- Body of `POST /api/posts` after express parsing; `title`/`content`
are checked truthy by the controller, the rest default as in
`new Post({...})` (`category: category || null`, `tags: tags || []`,
`status: status || 'draft'`). A `none` here is an absent (or falsy)
body field. -/
structure CreateFields where
  title : String
  content : String
  category : Option String
  tags : Option (List String)
  excerpt : Option String
  featuredImage : Option String
  status : Option Status
deriving Repr

/-- Outcome of `createPost`. -/
inductive CreateResult where
  | missingFields
  | invalidCategoryId
  | categoryNotFound
  | ok (post : Post)
deriving DecidableEq, Repr

/-- `createPost` from `postController.js`: 400 when title or content is
falsy; when a truthy category is given it must be a well-formed id of an
existing category; then the new document (author from `req.user`, views 0,
empty likes/comments, no slug, no publishedAt) is saved — on a new
document every set path counts as modified, so the pre-save hook runs
with both flags true. `newId`/`now` stand for the store-assigned id and
the server clock. -/
def createPost (db : DB) (cats : List String) (u : UserT) (f : CreateFields)
    (newId : String) (now : Nat) : CreateResult × DB :=
  if f.title == "" || f.content == "" then (CreateResult.missingFields, db)
  else match f.category with
  | some c =>
    if !isValidObjectId c then (CreateResult.invalidCategoryId, db)
    else if !(cats.contains c) then (CreateResult.categoryNotFound, db)
    else
      let post := preSaveHook true true now
        { id := newId, title := f.title, content := f.content, author := u.id
          category := some c, tags := f.tags.getD [], excerpt := f.excerpt.getD ""
          featuredImage := f.featuredImage.getD "", status := f.status.getD Status.draft
          publishedAt := none, views := 0, likes := [], comments := []
          slug := "", createdAt := now, updatedAt := now }
      (CreateResult.ok post, db ++ [post])
  | none =>
    let post := preSaveHook true true now
      { id := newId, title := f.title, content := f.content, author := u.id
        category := none, tags := f.tags.getD [], excerpt := f.excerpt.getD ""
        featuredImage := f.featuredImage.getD "", status := f.status.getD Status.draft
        publishedAt := none, views := 0, likes := [], comments := []
        slug := "", createdAt := now, updatedAt := now }
    (CreateResult.ok post, db ++ [post])

/-- Body of `PUT /api/posts/:id`. `none` is an absent (or, for the
truthiness-guarded `title`/`content`/`tags`/`status`, falsy) field.
`category` distinguishes absent (`none`) from provided
(`some v`, where `v = none` is a falsy value that the assignment
`category || null` turns into null). -/
structure UpdateFields where
  title : Option String
  content : Option String
  category : Option (Option String)
  tags : Option (List String)
  excerpt : Option String
  featuredImage : Option String
  status : Option Status
deriving Repr

/-- Outcome of `updatePost`. -/
inductive UpdateResult where
  | invalidId
  | notFound
  | forbidden
  | invalidCategoryId
  | categoryNotFound
  | ok (post : Post)
deriving DecidableEq, Repr

/-- The tail of `updatePost` past all its guard returns: the guarded
field assignments (`if (title) post.title = title; ...`) followed by
`post.save()` and the write-back. The save's modified flags hold exactly
when an assignment changed the value, which is when mongoose marks the
path modified. -/
def applyUpdate (db : DB) (post : Post) (f : UpdateFields) (now : Nat) :
    UpdateResult × DB :=
  let updated :=
    { post with
      title := f.title.getD post.title
      content := f.content.getD post.content
      category := match f.category with | some v => v | none => post.category
      tags := f.tags.getD post.tags
      excerpt := f.excerpt.getD post.excerpt
      featuredImage := f.featuredImage.getD post.featuredImage
      status := f.status.getD post.status
      updatedAt := now }
  let titleModified := match f.title with
    | some t => t != post.title
    | none => false
  let statusModified := match f.status with
    | some s => s != post.status
    | none => false
  let saved := preSaveHook titleModified statusModified now updated
  (UpdateResult.ok saved, storeSaved saved db)

/-- `updatePost` from `postController.js`, in source order: 400 for a
malformed id, 404 when no post has the id, 403 unless requester is the
author or an admin, then category re-validation (only when a truthy
category differing from the current one is supplied), then the guarded
field assignments and `post.save()` (`applyUpdate`). -/
def updatePost (db : DB) (cats : List String) (u : UserT) (id : String)
    (f : UpdateFields) (now : Nat) : UpdateResult × DB :=
  if !isValidObjectId id then (UpdateResult.invalidId, db)
  else match List.find? (fun q => q.id == id) db with
  | none => (UpdateResult.notFound, db)
  | some post =>
    if post.author != u.id && u.role != Role.admin then (UpdateResult.forbidden, db)
    else match f.category with
    | some (some c) =>
      if c != (post.category.getD "") then
        if !isValidObjectId c then (UpdateResult.invalidCategoryId, db)
        else if !(cats.contains c) then (UpdateResult.categoryNotFound, db)
        else applyUpdate db post f now
      else applyUpdate db post f now
    | _ => applyUpdate db post f now

/-- Outcome of `toggleLike`. -/
inductive ToggleResult where
  | invalidId
  | notFound
  | ok (likeCount : Nat) (isLiked : Bool)
deriving DecidableEq, Repr

/-- The embedded-array mutation at the heart of `toggleLike`:
`findIndex` of the requester's entry; `splice(likeIndex, 1)` when found
(result unliked), `push({user})` otherwise (result liked); the response
carries `post.likes.length` and `isLiked: likeIndex === -1`. -/
def toggleLikeOnPost (uid : String) (now : Nat) (p : Post) : Post × Nat × Bool :=
  let likeIndex := p.likes.findIdx (fun like => like.user == uid)
  if likeIndex < p.likes.length then
    let newLikes := p.likes.eraseIdx likeIndex
    ({ p with likes := newLikes }, newLikes.length, false)
  else
    let newLikes := p.likes ++ [{ user := uid, createdAt := now }]
    ({ p with likes := newLikes }, newLikes.length, true)

/-- `toggleLike` from `postController.js`: 400 for a malformed id, 404
when absent, otherwise the toggle followed by `post.save()`. -/
def toggleLike (db : DB) (u : UserT) (id : String) (now : Nat) : ToggleResult × DB :=
  if !isValidObjectId id then (ToggleResult.invalidId, db)
  else match List.find? (fun q => q.id == id) db with
  | none => (ToggleResult.notFound, db)
  | some post =>
    let r := toggleLikeOnPost u.id now post
    let saved := preSaveHook false false now r.1
    (ToggleResult.ok r.2.1 r.2.2, storeSaved saved db)

/-- Outcome of `addComment`. -/
inductive AddCommentResult where
  | emptyContent
  | invalidId
  | notFound
  | ok (comment : CommentDoc)
deriving DecidableEq, Repr

/-- `addComment` from `postController.js`: 400 when the content trims to
empty, 400 for a malformed id, 404 when absent; otherwise push
`{user, content: content.trim()}` and save. -/
def addComment (db : DB) (u : UserT) (id : String) (content : String) (now : Nat) :
    AddCommentResult × DB :=
  if content.trim.length == 0 then (AddCommentResult.emptyContent, db)
  else if !isValidObjectId id then (AddCommentResult.invalidId, db)
  else match List.find? (fun q => q.id == id) db with
  | none => (AddCommentResult.notFound, db)
  | some post =>
    let comment : CommentDoc := { user := u.id, content := content.trim, createdAt := now }
    let saved := preSaveHook false false now
      { post with comments := post.comments ++ [comment] }
    (AddCommentResult.ok comment, storeSaved saved db)

/-- Modelled from the spec: the decoded payload of a session token
(§4.1, glossary "Claims"); the middleware only reads `id` from it.
The implementing file `server/src/utils/auth.js` is not part of the
sources provided. -/
structure Claims where
  id : String
deriving DecidableEq, Repr

/-- How `verifyToken` can throw, as discriminated by the middleware's
catch block: `JsonWebTokenError`/message `'Invalid token'`,
`TokenExpiredError`, or anything else. -/
inductive TokenError where
  | invalid
  | expired
  | other
deriving DecidableEq, Repr

/-- Modelled from the spec: `extractToken(headerValue) -> token | null`
"parses a Bearer token value; returns null (not an error) for
missing/malformed header" (§4.1), pinned by the repository's own unit
tests (`auth.test.js`): the value after the first seven characters
`Bearer ` is returned verbatim (extra spaces included), any other header
gives null. The implementing file `server/src/utils/auth.js` is not part
of the sources provided. -/
def extractTokenFromHeader (header : Option String) : Option String :=
  match header with
  | none => none
  | some h =>
    if List.isPrefixOf "Bearer ".data h.data then some (String.mk (h.data.drop 7))
    else none

/-- What an auth middleware does with the request: pass it on with an
identity, pass it on anonymously, or respond with an error status. -/
inductive AuthOutcome where
  | proceedWith (u : UserT)
  | proceedAnon
  | reject (status : Nat) (message : String)
deriving DecidableEq, Repr

/-- `authenticate` from `middleware/auth.js`. `verify` abstracts the
external `verifyToken` (which throws `TokenError` into the catch block)
and `findById` abstracts `User.findById`: 401 for a missing token, 401
for an invalid or expired one, 500 for any other verification failure,
401 when the user is gone or deactivated; otherwise the request proceeds
with the user attached. -/
def authenticate (verify : String → Except TokenError Claims)
    (findById : String → Option UserT) (header : Option String) : AuthOutcome :=
  match extractTokenFromHeader header with
  | none => AuthOutcome.reject 401 "Access token is required"
  | some token =>
    match verify token with
    | Except.error TokenError.invalid => AuthOutcome.reject 401 "Invalid access token"
    | Except.error TokenError.expired => AuthOutcome.reject 401 "Access token has expired"
    | Except.error TokenError.other =>
        AuthOutcome.reject 500 "Internal server error during authentication"
    | Except.ok decoded =>
      match findById decoded.id with
      | none => AuthOutcome.reject 401 "User not found"
      | some user =>
        if user.isActive then AuthOutcome.proceedWith user
        else AuthOutcome.reject 401 "User account is deactivated"

/-- `optionalAuth` from `middleware/auth.js`: the same resolution inside
a try/catch whose handler just calls `next()`; `req.user` is attached
only when a token was present, verified, and resolved to an active user
(`if (user && user.isActive)`); every other path — no token, verification
throw of any kind, unknown or deactivated user — proceeds anonymously. -/
def optionalAuth (verify : String → Except TokenError Claims)
    (findById : String → Option UserT) (header : Option String) : AuthOutcome :=
  match extractTokenFromHeader header with
  | none => AuthOutcome.proceedAnon
  | some token =>
    match verify token with
    | Except.error _ => AuthOutcome.proceedAnon
    | Except.ok decoded =>
      match findById decoded.id with
      | none => AuthOutcome.proceedAnon
      | some user =>
        if user.isActive then AuthOutcome.proceedWith user
        else AuthOutcome.proceedAnon

/-- The invariant "a user may have at most one Like entry per post",
as distinctness of the liking users. -/
def likesUnique (p : Post) : Prop := (p.likes.map Like.user).Nodup

/-! ### Concrete witness data -/

/-- Post used by the C7 witness. -/
def c7Post : Post :=
  { id := "aaaaaaaaaaaaaaaaaaaaaaaa", title := "A Post Title", content := "Post content here"
    author := "bbbbbbbbbbbbbbbbbbbbbbbb", category := none, tags := [], slug := "a-post-title"
    excerpt := "", featuredImage := "", status := Status.published
    publishedAt := some 1, views := 0, likes := [], comments := []
    createdAt := 1, updatedAt := 1 }

/-- Requester used by the C7 witness: not the author, not an admin. -/
def c7Requester : UserT :=
  { id := "dddddddddddddddddddddddd", role := Role.user, isActive := true }

/-- Empty update body used by the C7 witness and counterexample. -/
def c7Fields : UpdateFields :=
  { title := none, content := none, category := none, tags := none
    excerpt := none, featuredImage := none, status := none }

/-- Published post used by the C8 witness. -/
def c8Post : Post :=
  { id := "aaaaaaaaaaaaaaaaaaaaaaaa", title := "A Public Post", content := "Readable content"
    author := "bbbbbbbbbbbbbbbbbbbbbbbb", category := none, tags := [], slug := "a-public-post"
    excerpt := "", featuredImage := "", status := Status.published
    publishedAt := some 1, views := 0, likes := [], comments := []
    createdAt := 1, updatedAt := 1 }

/-- Author of the C1 counterexample draft: an ordinary (non-admin) user. -/
def c1Author : UserT :=
  { id := "bbbbbbbbbbbbbbbbbbbbbbbb", role := Role.user, isActive := true }

/-- The C1 counterexample post: a draft authored by `c1Author`. -/
def c1Draft : Post :=
  { id := "aaaaaaaaaaaaaaaaaaaaaaaa", title := "My Draft Post", content := "Draft body text"
    author := "bbbbbbbbbbbbbbbbbbbbbbbb", category := none, tags := [], slug := "my-draft-post"
    excerpt := "", featuredImage := "", status := Status.draft
    publishedAt := none, views := 0, likes := [], comments := []
    createdAt := 1, updatedAt := 1 }

/-- The C1 witness post: published, hence anonymously viewable. -/
def c1Pub : Post :=
  { id := "cccccccccccccccccccccccc", title := "A Published Post", content := "Public body text"
    author := "bbbbbbbbbbbbbbbbbbbbbbbb", category := none, tags := [], slug := "a-published-post"
    excerpt := "", featuredImage := "", status := Status.published
    publishedAt := some 1, views := 0, likes := [], comments := []
    createdAt := 1, updatedAt := 1 }

/-- Author used by the C3 witness. -/
def c3Author : UserT :=
  { id := "bbbbbbbbbbbbbbbbbbbbbbbb", role := Role.user, isActive := true }

/-- The C3 witness post: a draft without a publishedAt. -/
def c3Draft : Post :=
  { id := "aaaaaaaaaaaaaaaaaaaaaaaa", title := "Soon Published", content := "Body of the post"
    author := "bbbbbbbbbbbbbbbbbbbbbbbb", category := none, tags := [], slug := "soon-published"
    excerpt := "", featuredImage := "", status := Status.draft
    publishedAt := none, views := 0, likes := [], comments := []
    createdAt := 1, updatedAt := 1 }

/-- The C3 witness update body: publish the post. -/
def c3Fields : UpdateFields :=
  { title := none, content := none, category := none, tags := none
    excerpt := none, featuredImage := none, status := some Status.published }

/-- The post the C3 witness update produces. -/
def c3Updated : Post :=
  { c3Draft with status := Status.published, publishedAt := some 42, updatedAt := 42 }

/-- Author used by the C4 counterexample and witness. -/
def c4Author : UserT :=
  { id := "bbbbbbbbbbbbbbbbbbbbbbbb", role := Role.user, isActive := true }

/-- C4 counterexample creation body: a five-character title with no
letters or digits, within the validated 5-100 length bounds. -/
def c4Create : CreateFields :=
  { title := "!!!!!", content := "0123456789", category := none, tags := none
    excerpt := none, featuredImage := none, status := none }

/-- The post the C4 counterexample creation stores: its derived slug is
empty. -/
def c4First : Post :=
  { id := "aaaaaaaaaaaaaaaaaaaaaaaa", title := "!!!!!", content := "0123456789"
    author := "bbbbbbbbbbbbbbbbbbbbbbbb", category := none, tags := [], slug := ""
    excerpt := "", featuredImage := "", status := Status.draft
    publishedAt := none, views := 0, likes := [], comments := []
    createdAt := 3, updatedAt := 3 }

/-- C4 counterexample update body: a new title. -/
def c4Upd : UpdateFields :=
  { title := some "Updated Title Now", content := none, category := none, tags := none
    excerpt := none, featuredImage := none, status := none }

/-- The post the C4 counterexample update stores: the slug has been
re-derived. -/
def c4Second : Post :=
  { c4First with title := "Updated Title Now", slug := "updated-title-now", updatedAt := 9 }

/-- The C4 witness post: its slug is nonempty. -/
def c4Post : Post :=
  { id := "cccccccccccccccccccccccc", title := "A Stable Title", content := "Body of the post"
    author := "bbbbbbbbbbbbbbbbbbbbbbbb", category := none, tags := [], slug := "a-stable-title"
    excerpt := "", featuredImage := "", status := Status.published
    publishedAt := some 1, views := 0, likes := [], comments := []
    createdAt := 1, updatedAt := 1 }

/-- C4 witness update body: retitle the post. -/
def c4PostUpd : UpdateFields :=
  { title := some "Another Title Here", content := none, category := none, tags := none
    excerpt := none, featuredImage := none, status := none }

/-- The post the C4 witness update stores. -/
def c4PostAfter : Post :=
  { c4Post with title := "Another Title Here", updatedAt := 9 }

/-- The C2 witness post: one existing like by another user. -/
def c2Post : Post :=
  { id := "aaaaaaaaaaaaaaaaaaaaaaaa", title := "A Liked Post", content := "Body of the post"
    author := "bbbbbbbbbbbbbbbbbbbbbbbb", category := none, tags := [], slug := "a-liked-post"
    excerpt := "", featuredImage := "", status := Status.published
    publishedAt := some 1, views := 0
    likes := [{ user := "eeeeeeeeeeeeeeeeeeeeeeee", createdAt := 2 }], comments := []
    createdAt := 1, updatedAt := 1 }

/-- The C2 witness requester. -/
def c2User : UserT :=
  { id := "dddddddddddddddddddddddd", role := Role.user, isActive := true }

/-- The C5 witness post: one like entry. -/
def c5Post : Post :=
  { id := "aaaaaaaaaaaaaaaaaaaaaaaa", title := "A Counted Post", content := "Body of the post"
    author := "bbbbbbbbbbbbbbbbbbbbbbbb", category := none, tags := [], slug := "a-counted-post"
    excerpt := "", featuredImage := "", status := Status.published
    publishedAt := some 1, views := 0
    likes := [{ user := "eeeeeeeeeeeeeeeeeeeeeeee", createdAt := 2 }], comments := []
    createdAt := 1, updatedAt := 1 }

/-- First post of the C9 witness collection (older). -/
def c9A : Post :=
  { id := "aaaaaaaaaaaaaaaaaaaaaaaa", title := "First Published", content := "Body number one"
    author := "bbbbbbbbbbbbbbbbbbbbbbbb", category := none, tags := [], slug := "first-published"
    excerpt := "", featuredImage := "", status := Status.published
    publishedAt := some 10, views := 0, likes := [], comments := []
    createdAt := 10, updatedAt := 10 }

/-- Second post of the C9 witness collection (newer, so first in the
default createdAt-descending order). -/
def c9B : Post :=
  { id := "cccccccccccccccccccccccc", title := "Second Published", content := "Body number two"
    author := "bbbbbbbbbbbbbbbbbbbbbbbb", category := none, tags := [], slug := "second-published"
    excerpt := "", featuredImage := "", status := Status.published
    publishedAt := some 20, views := 0, likes := [], comments := []
    createdAt := 20, updatedAt := 20 }

/-- The C9 witness query: page 2, limit 1, no filters. -/
def c9Query : PostsQuery :=
  { page := some 2, limit := some 1, status := none, category := none
    author := none, search := none, sortBy := none, sortOrder := none }

/-! ### Helper lemmas -/

theorem slugBranch_likes (tm : Bool) (p : Post) : (slugBranch tm p).likes = p.likes := by
  unfold slugBranch; split <;> rfl

theorem publishBranch_likes (sm : Bool) (now : Nat) (p : Post) :
    (publishBranch sm now p).likes = p.likes := by
  unfold publishBranch; split <;> rfl

theorem preSaveHook_likes (tm sm : Bool) (now : Nat) (p : Post) :
    (preSaveHook tm sm now p).likes = p.likes := by
  unfold preSaveHook; rw [publishBranch_likes, slugBranch_likes]

theorem slugBranch_comments (tm : Bool) (p : Post) :
    (slugBranch tm p).comments = p.comments := by
  unfold slugBranch; split <;> rfl

theorem publishBranch_comments (sm : Bool) (now : Nat) (p : Post) :
    (publishBranch sm now p).comments = p.comments := by
  unfold publishBranch; split <;> rfl

theorem preSaveHook_comments (tm sm : Bool) (now : Nat) (p : Post) :
    (preSaveHook tm sm now p).comments = p.comments := by
  unfold preSaveHook; rw [publishBranch_comments, slugBranch_comments]

theorem slugBranch_id (tm : Bool) (p : Post) : (slugBranch tm p).id = p.id := by
  unfold slugBranch; split <;> rfl

theorem publishBranch_id (sm : Bool) (now : Nat) (p : Post) :
    (publishBranch sm now p).id = p.id := by
  unfold publishBranch; split <;> rfl

theorem preSaveHook_id (tm sm : Bool) (now : Nat) (p : Post) :
    (preSaveHook tm sm now p).id = p.id := by
  unfold preSaveHook; rw [publishBranch_id, slugBranch_id]

theorem publishBranch_slug (sm : Bool) (now : Nat) (p : Post) :
    (publishBranch sm now p).slug = p.slug := by
  unfold publishBranch; split <;> rfl

theorem slugBranch_slug_of_ne (tm : Bool) (p : Post) (h : p.slug ≠ "") :
    (slugBranch tm p).slug = p.slug := by
  unfold slugBranch
  split
  case isTrue hc =>
    exact absurd (by simpa using (Bool.and_elim_right hc)) h
  case isFalse => rfl

theorem preSaveHook_slug_of_ne (tm sm : Bool) (now : Nat) (p : Post) (h : p.slug ≠ "") :
    (preSaveHook tm sm now p).slug = p.slug := by
  unfold preSaveHook; rw [publishBranch_slug, slugBranch_slug_of_ne tm p h]

theorem slugBranch_publishedAt (tm : Bool) (p : Post) :
    (slugBranch tm p).publishedAt = p.publishedAt := by
  unfold slugBranch; split <;> rfl

theorem slugBranch_status (tm : Bool) (p : Post) :
    (slugBranch tm p).status = p.status := by
  unfold slugBranch; split <;> rfl

theorem publishBranch_publishedAt_of_some (sm : Bool) (now t : Nat) (p : Post)
    (h : p.publishedAt = some t) : (publishBranch sm now p).publishedAt = some t := by
  unfold publishBranch
  split
  case isTrue hc =>
    have : (p.publishedAt == none) = true := Bool.and_elim_right hc
    rw [h] at this
    simp at this
  case isFalse => exact h

theorem preSaveHook_publishedAt_of_some (tm sm : Bool) (now t : Nat) (p : Post)
    (h : p.publishedAt = some t) : (preSaveHook tm sm now p).publishedAt = some t := by
  unfold preSaveHook
  exact publishBranch_publishedAt_of_some sm now t _ (by rw [slugBranch_publishedAt, h])

theorem preSaveHook_stamps (tm : Bool) (now : Nat) (p : Post)
    (hs : p.status = Status.published) (hn : p.publishedAt = none) :
    (preSaveHook tm true now p).publishedAt = some now := by
  unfold preSaveHook publishBranch
  have h1 : (slugBranch tm p).status = Status.published := by rw [slugBranch_status, hs]
  have h2 : (slugBranch tm p).publishedAt = none := by rw [slugBranch_publishedAt, hn]
  rw [h1, h2]
  simp

theorem findIdx_lt_iff_any {α : Type} (pred : α → Bool) (l : List α) :
    (l.findIdx pred < l.length) ↔ l.any pred = true := by
  constructor
  · intro h
    by_contra hany
    have hfalse : l.any pred = false := by
      cases hval : l.any pred
      · rfl
      · exact absurd hval hany
    have : l.findIdx pred = l.length :=
      List.findIdx_eq_length.mpr (fun x hx => by
        have := List.any_eq_false.mp hfalse x hx
        cases hv : pred x
        · rfl
        · exact absurd hv this)
    omega
  · intro h
    exact List.findIdx_lt_length_of_exists (List.any_eq_true.mp h)

theorem eraseIdx_append_length {α : Type} (l : List α) (e : α) :
    (l ++ [e]).eraseIdx l.length = l := by
  induction l with
  | nil => rfl
  | cons x t ih => simpa using ih

theorem findIdx_append_singleton {α : Type} (pred : α → Bool) (l : List α) (e : α)
    (h : l.any pred = false) (he : pred e = true) :
    (l ++ [e]).findIdx pred = l.length := by
  induction l with
  | nil => simp [List.findIdx_cons, he]
  | cons x t ih =>
    have hx : pred x = false := by
      cases hv : pred x
      · rfl
      · exact absurd hv (List.any_eq_false.mp h x (by simp))
    have ht : t.any pred = false := by
      rw [List.any_eq_false] at h ⊢
      exact fun a ha => h a (by simp [ha])
    simp [List.findIdx_cons, hx, ih ht]

theorem eraseIdx_findIdx_any_false (uid : String) (l : List Like)
    (hnd : (l.map Like.user).Nodup) :
    (l.eraseIdx (l.findIdx (fun e => e.user == uid))).any (fun e => e.user == uid) = false := by
  induction l with
  | nil => rfl
  | cons a t ih =>
    rw [List.map_cons, List.nodup_cons] at hnd
    cases ha : (a.user == uid)
    · rw [List.findIdx_cons, ha, cond_false, List.eraseIdx_cons_succ, List.any_cons, ha,
        Bool.false_or]
      exact ih hnd.2
    · rw [List.findIdx_cons, ha, cond_true, List.eraseIdx_cons_zero]
      rw [List.any_eq_false]
      intro x hx hpx
      have hx1 : x.user = uid := by simpa using hpx
      have hA : a.user = uid := by simpa using ha
      exact hnd.1 (by
        rw [List.mem_map]
        exact ⟨x, hx, by rw [hx1, hA]⟩)

theorem nodup_toggle_append (uid : String) (now : Nat) (l : List Like)
    (hnd : (l.map Like.user).Nodup) (h : l.any (fun e => e.user == uid) = false) :
    ((l ++ [({ user := uid, createdAt := now } : Like)]).map Like.user).Nodup := by
  rw [List.Perm.nodup_iff (List.Perm.map Like.user (List.perm_append_singleton _ _))]
  rw [List.map_cons, List.nodup_cons]
  refine ⟨?_, hnd⟩
  intro hmem
  rw [List.mem_map] at hmem
  obtain ⟨x, hx, hxu⟩ := hmem
  have := List.any_eq_false.mp h x hx
  simp [hxu] at this

theorem nodup_eraseIdx (l : List Like) (i : Nat)
    (hnd : (l.map Like.user).Nodup) : ((l.eraseIdx i).map Like.user).Nodup :=
  List.Nodup.sublist (List.Sublist.map Like.user (List.eraseIdx_sublist l i)) hnd

theorem mem_storeSaved {q : Post} {p : Post} {db : DB} (h : q ∈ storeSaved p db) :
    q = p ∨ q ∈ db := by
  unfold storeSaved at h
  rw [List.mem_map] at h
  obtain ⟨q0, hq0, hq⟩ := h
  by_cases hid : (q0.id == p.id) = true
  · left; rw [← hq, if_pos hid]
  · right; rw [← hq, if_neg hid]; exact hq0

theorem getPost_notFound_frame (db : DB) (requester : Option UserT)
    (identifier : String) (now : Nat)
    (h : (getPost db requester identifier now).1 = GetResult.notFound) :
    (getPost db requester identifier now).2 = db := by
  unfold getPost at h ⊢
  cases hfind : findFirst (getPostQueryPred requester identifier) db with
  | none => rfl
  | some q =>
    rw [hfind] at h
    simp at h

theorem getPost_ok_characterization (db : DB) (requester : Option UserT)
    (identifier : String) (now : Nat) (p : Post)
    (hp : (getPost db requester identifier now).1 = GetResult.ok p) :
    ∃ q, findFirst (getPostQueryPred requester identifier) db = some q ∧
      p = { q with views := q.views + 1 } ∧
      (getPost db requester identifier now).2 = storeSaved p db := by
  unfold getPost at hp ⊢
  cases hfind : findFirst (getPostQueryPred requester identifier) db with
  | none =>
    rw [hfind] at hp
    simp at hp
  | some q =>
    rw [hfind] at hp
    dsimp only at hp
    have hsaved : preSaveHook false false now { q with views := q.views + 1 } = p := by
      injection hp
    refine ⟨q, rfl, ?_, ?_⟩
    · rw [← hsaved]
      rfl
    · dsimp only
      rw [← hsaved]

theorem updatePost_ok_inv (db : DB) (cats : List String) (u : UserT) (id : String)
    (f : UpdateFields) (now : Nat) (p2 : Post) (db2 : DB)
    (h : updatePost db cats u id f now = (UpdateResult.ok p2, db2)) :
    ∃ post, List.find? (fun q => q.id == id) db = some post ∧
      applyUpdate db post f now = (UpdateResult.ok p2, db2) := by
  unfold updatePost at h
  split at h
  · simp at h
  · split at h
    · simp at h
    · next post hfind =>
      split at h
      · simp at h
      · split at h
        · split at h
          · split at h
            · simp at h
            · split at h
              · simp at h
              · exact ⟨post, hfind, h⟩
          · exact ⟨post, hfind, h⟩
        · exact ⟨post, hfind, h⟩

theorem updatePost_failure_frame (db : DB) (cats : List String) (u : UserT)
    (id : String) (f : UpdateFields) (now : Nat) (res : UpdateResult) (db2 : DB)
    (h : updatePost db cats u id f now = (res, db2))
    (hfail : ∀ p2, res ≠ UpdateResult.ok p2) : db2 = db := by
  unfold updatePost at h
  split at h
  · rw [Prod.mk.injEq] at h
    exact h.2.symm
  · split at h
    · rw [Prod.mk.injEq] at h
      exact h.2.symm
    · next post hfind =>
      split at h
      · rw [Prod.mk.injEq] at h
        exact h.2.symm
      · have happly : ∀ (hap : applyUpdate db post f now = (res, db2)), db2 = db := by
          intro hap
          unfold applyUpdate at hap
          rw [Prod.mk.injEq] at hap
          exact absurd hap.1.symm (hfail _)
        split at h
        · split at h
          · split at h
            · rw [Prod.mk.injEq] at h
              exact h.2.symm
            · split at h
              · rw [Prod.mk.injEq] at h
                exact h.2.symm
              · exact happly h
          · exact happly h
        · exact happly h

theorem applyUpdate_ok_saved (db : DB) (post : Post) (f : UpdateFields) (now : Nat)
    (p2 : Post) (db2 : DB) (h : applyUpdate db post f now = (UpdateResult.ok p2, db2)) :
    p2 = preSaveHook
      (match f.title with | some t => t != post.title | none => false)
      (match f.status with | some s => s != post.status | none => false) now
      { post with
        title := f.title.getD post.title
        content := f.content.getD post.content
        category := match f.category with | some v => v | none => post.category
        tags := f.tags.getD post.tags
        excerpt := f.excerpt.getD post.excerpt
        featuredImage := f.featuredImage.getD post.featuredImage
        status := f.status.getD post.status
        updatedAt := now } ∧
    db2 = storeSaved p2 db := by
  unfold applyUpdate at h
  rw [Prod.mk.injEq] at h
  obtain ⟨h1, h2⟩ := h
  injection h1 with h1
  constructor
  · exact h1.symm
  · rw [← h2, h1]

theorem preSaveHook_new_slug (now : Nat) (p : Post) (h : p.slug = "") :
    (preSaveHook true true now p).slug = slugify p.title := by
  unfold preSaveHook
  rw [publishBranch_slug]
  unfold slugBranch
  rw [h]
  simp

theorem createPost_ok_inv (db : DB) (cats : List String) (u : UserT) (f : CreateFields)
    (nid : String) (now : Nat) (p : Post) (db2 : DB)
    (h : createPost db cats u f nid now = (CreateResult.ok p, db2)) :
    p.slug = slugify f.title ∧ p.likes = [] ∧ p.comments = [] ∧ db2 = db ++ [p] := by
  unfold createPost at h
  split at h
  · simp at h
  · split at h
    · split at h
      · simp at h
      · split at h
        · simp at h
        · rw [Prod.mk.injEq] at h
          obtain ⟨h1, h2⟩ := h
          injection h1 with h1
          refine ⟨?_, ?_, ?_, ?_⟩
          · rw [← h1]
            exact preSaveHook_new_slug now _ rfl
          · rw [← h1, preSaveHook_likes]
          · rw [← h1, preSaveHook_comments]
          · rw [← h2, h1]
    · rw [Prod.mk.injEq] at h
      obtain ⟨h1, h2⟩ := h
      injection h1 with h1
      refine ⟨?_, ?_, ?_, ?_⟩
      · rw [← h1]
        exact preSaveHook_new_slug now _ rfl
      · rw [← h1, preSaveHook_likes]
      · rw [← h1, preSaveHook_comments]
      · rw [← h2, h1]

theorem toggleLikeOnPost_slug (uid : String) (now : Nat) (p : Post) :
    (toggleLikeOnPost uid now p).1.slug = p.slug := by
  unfold toggleLikeOnPost
  dsimp only
  split <;> rfl

theorem toggleLikeOnPost_comments (uid : String) (now : Nat) (p : Post) :
    (toggleLikeOnPost uid now p).1.comments = p.comments := by
  unfold toggleLikeOnPost
  dsimp only
  split <;> rfl

theorem toggleLike_db_mem (db : DB) (u : UserT) (id : String) (now : Nat) (q : Post)
    (hq : q ∈ (toggleLike db u id now).2) :
    q ∈ db ∨ ∃ post, List.find? (fun r => r.id == id) db = some post ∧
      q = preSaveHook false false now (toggleLikeOnPost u.id now post).1 := by
  unfold toggleLike at hq
  split at hq
  · exact Or.inl hq
  · split at hq
    · exact Or.inl hq
    · next post hfind =>
      dsimp only at hq
      rcases mem_storeSaved hq with hsaved | hmem
      · exact Or.inr ⟨post, hfind, hsaved⟩
      · exact Or.inl hmem

theorem addComment_db_mem (db : DB) (u : UserT) (id content : String) (now : Nat)
    (q : Post) (hq : q ∈ (addComment db u id content now).2) :
    q ∈ db ∨ ∃ post, List.find? (fun r => r.id == id) db = some post ∧
      q = preSaveHook false false now
        { post with comments := post.comments ++
            [({ user := u.id, content := content.trim, createdAt := now } : CommentDoc)] } := by
  unfold addComment at hq
  split at hq
  · exact Or.inl hq
  · split at hq
    · exact Or.inl hq
    · split at hq
      · exact Or.inl hq
      · next post hfind =>
        dsimp only at hq
        rcases mem_storeSaved hq with hsaved | hmem
        · exact Or.inr ⟨post, hfind, hsaved⟩
        · exact Or.inl hmem

theorem getPost_db_mem (db : DB) (requester : Option UserT) (identifier : String)
    (now : Nat) (q : Post) (hq : q ∈ (getPost db requester identifier now).2) :
    q ∈ db ∨ ∃ post, findFirst (getPostQueryPred requester identifier) db = some post ∧
      q = preSaveHook false false now { post with views := post.views + 1 } := by
  unfold getPost at hq
  split at hq
  · exact Or.inl hq
  · next post hfind =>
    dsimp only at hq
    rcases mem_storeSaved hq with hsaved | hmem
    · exact Or.inr ⟨post, hfind, hsaved⟩
    · exact Or.inl hmem

theorem updatePost_db_mem (db : DB) (cats : List String) (u : UserT) (id : String)
    (f : UpdateFields) (now : Nat) (q : Post)
    (hq : q ∈ (updatePost db cats u id f now).2) :
    q ∈ db ∨ ∃ post, List.find? (fun r => r.id == id) db = some post ∧
      q.likes = post.likes := by
  have happly : ∀ post, List.find? (fun r => r.id == id) db = some post →
      q ∈ (applyUpdate db post f now).2 →
      q ∈ db ∨ ∃ post, List.find? (fun r => r.id == id) db = some post ∧
        q.likes = post.likes := by
    intro post hfind hmem
    unfold applyUpdate at hmem
    dsimp only at hmem
    rcases mem_storeSaved hmem with hsaved | hmem2
    · refine Or.inr ⟨post, hfind, ?_⟩
      rw [hsaved, preSaveHook_likes]
    · exact Or.inl hmem2
  unfold updatePost at hq
  split at hq
  · exact Or.inl hq
  · split at hq
    · exact Or.inl hq
    · next post hfind =>
      split at hq
      · exact Or.inl hq
      · split at hq
        · split at hq
          · split at hq
            · exact Or.inl hq
            · split at hq
              · exact Or.inl hq
              · exact happly post hfind hq
          · exact happly post hfind hq
        · exact happly post hfind hq

theorem createPost_db_mem (db : DB) (cats : List String) (u : UserT) (f : CreateFields)
    (nid : String) (now : Nat) (q : Post)
    (hq : q ∈ (createPost db cats u f nid now).2) :
    q ∈ db ∨ (q.likes = [] ∧ q.comments = []) := by
  unfold createPost at hq
  split at hq
  · exact Or.inl hq
  · split at hq
    · split at hq
      · exact Or.inl hq
      · split at hq
        · exact Or.inl hq
        · dsimp only at hq
          rcases List.mem_append.mp hq with hmem | hnew
          · exact Or.inl hmem
          · rcases List.mem_singleton.mp hnew with rfl
            exact Or.inr ⟨by rw [preSaveHook_likes], by rw [preSaveHook_comments]⟩
    · dsimp only at hq
      rcases List.mem_append.mp hq with hmem | hnew
      · exact Or.inl hmem
      · rcases List.mem_singleton.mp hnew with rfl
        exact Or.inr ⟨by rw [preSaveHook_likes], by rw [preSaveHook_comments]⟩

/-! ### Claim theorems -/

/-- C6: for every call to optionalAuth — whatever the verifier and user
store do — the request is never rejected; and with an absent header, a
header from which no token can be extracted (malformed), or a token whose
verification fails (invalid or expired), the request proceeds with no
identity attached. -/
theorem c6_optionalAuth_absorbs_failures
    (verify : String → Except TokenError Claims) (findById : String → Option UserT)
    (header : Option String) :
    (∀ s m, optionalAuth verify findById header ≠ AuthOutcome.reject s m) ∧
    (header = none → optionalAuth verify findById header = AuthOutcome.proceedAnon) ∧
    (extractTokenFromHeader header = none →
      optionalAuth verify findById header = AuthOutcome.proceedAnon) ∧
    (∀ tok e, extractTokenFromHeader header = some tok → verify tok = Except.error e →
      optionalAuth verify findById header = AuthOutcome.proceedAnon) := by
  refine ⟨?_, ?_, ?_, ?_⟩
  · intro s m
    unfold optionalAuth
    cases hex : extractTokenFromHeader header with
    | none => simp
    | some tok =>
      cases hv : verify tok with
      | error e => simp [hv]
      | ok c =>
        cases hf : findById c.id with
        | none => simp [hv, hf]
        | some u => cases hu : u.isActive <;> simp [hv, hf, hu]
  · intro h
    rw [h]
    rfl
  · intro h
    unfold optionalAuth
    rw [h]
  · intro tok e hex hv
    unfold optionalAuth
    rw [hex]
    simp [hv]

/-- Witness for C6 at a concrete malformed-then-invalid input. -/
theorem c6_optionalAuth_absorbs_failures_witness :
    optionalAuth (fun _ => Except.error TokenError.invalid) (fun _ => none)
      (some "Bearer bad") = AuthOutcome.proceedAnon :=
  (c6_optionalAuth_absorbs_failures (fun _ => Except.error TokenError.invalid)
    (fun _ => none) (some "Bearer bad")).2.2.2 "bad" TokenError.invalid (by decide) rfl

/-- C10: when the token verifies but the resolved account no longer
exists or is deactivated, optionalAuth proceeds anonymously while
authenticate rejects the same inputs with a 401. -/
theorem c10_inactive_account_divergence
    (verify : String → Except TokenError Claims) (findById : String → Option UserT)
    (header : Option String) (tok : String) (claims : Claims)
    (hex : extractTokenFromHeader header = some tok)
    (hv : verify tok = Except.ok claims) :
    (findById claims.id = none →
      optionalAuth verify findById header = AuthOutcome.proceedAnon ∧
      authenticate verify findById header = AuthOutcome.reject 401 "User not found") ∧
    (∀ u, findById claims.id = some u → u.isActive = false →
      optionalAuth verify findById header = AuthOutcome.proceedAnon ∧
      authenticate verify findById header =
        AuthOutcome.reject 401 "User account is deactivated") := by
  constructor
  · intro hf
    constructor
    · unfold optionalAuth
      rw [hex]
      simp [hv, hf]
    · unfold authenticate
      rw [hex]
      simp [hv, hf]
  · intro u hf hu
    constructor
    · unfold optionalAuth
      rw [hex]
      simp [hv, hf, hu]
    · unfold authenticate
      rw [hex]
      simp [hv, hf, hu]

/-- Witness for C10 at a concrete valid-token, deactivated-account input. -/
theorem c10_inactive_account_divergence_witness :
    optionalAuth (fun _ => Except.ok ({ id := "u1" } : Claims))
      (fun _ => some ({ id := "u1", role := Role.user, isActive := false } : UserT))
      (some "Bearer tok") = AuthOutcome.proceedAnon ∧
    authenticate (fun _ => Except.ok ({ id := "u1" } : Claims))
      (fun _ => some ({ id := "u1", role := Role.user, isActive := false } : UserT))
      (some "Bearer tok") = AuthOutcome.reject 401 "User account is deactivated" :=
  (c10_inactive_account_divergence
    (fun _ => Except.ok ({ id := "u1" } : Claims))
    (fun _ => some ({ id := "u1", role := Role.user, isActive := false } : UserT))
    (some "Bearer tok") "tok" ({ id := "u1" } : Claims) (by decide) rfl).2
    ({ id := "u1", role := Role.user, isActive := false } : UserT) rfl rfl

/-- C7 (amended): update fails with a 400 invalid-id error when the
post id is not a well-formed ObjectId, with NotFound when it is
well-formed but matches no post, and with Forbidden when the post exists
and the requester is neither the author nor an admin; each of these
failures leaves the post collection unchanged. -/
theorem c7_update_failure_modes (db : DB) (cats : List String) (u : UserT)
    (id : String) (f : UpdateFields) (now : Nat) :
    (isValidObjectId id = false →
      updatePost db cats u id f now = (UpdateResult.invalidId, db)) ∧
    (isValidObjectId id = true → List.find? (fun q => q.id == id) db = none →
      updatePost db cats u id f now = (UpdateResult.notFound, db)) ∧
    (∀ p, isValidObjectId id = true → List.find? (fun q => q.id == id) db = some p →
      (p.author == u.id) = false → (u.role == Role.admin) = false →
      updatePost db cats u id f now = (UpdateResult.forbidden, db)) := by
  refine ⟨?_, ?_, ?_⟩
  · intro h
    unfold updatePost
    rw [h]
    rfl
  · intro h hfind
    unfold updatePost
    rw [h]
    simp [hfind]
  · intro p h hfind ha hr
    unfold updatePost
    rw [h]
    simp only [Bool.not_true, Bool.false_eq_true, if_false, hfind]
    have hcond : (p.author != u.id && u.role != Role.admin) = true := by
      simp [bne, ha, hr]
    rw [if_pos hcond]

/-- Witness for C7: a concrete non-author, non-admin requester is
refused with Forbidden and the collection is untouched. -/
theorem c7_update_failure_modes_witness :
    updatePost [c7Post] [] c7Requester "aaaaaaaaaaaaaaaaaaaaaaaa" c7Fields 0 =
      (UpdateResult.forbidden, [c7Post]) :=
  (c7_update_failure_modes [c7Post] [] c7Requester "aaaaaaaaaaaaaaaaaaaaaaaa"
    c7Fields 0).2.2 c7Post (by decide) (by decide) (by decide) (by decide)

/-- C7 counterexample to the claim as stated: the malformed id "abc"
does not resolve to an existing post (the collection is empty), yet the
update fails with the 400 invalid-id error, not with NotFound. -/
theorem c7_update_failure_modes_counterexample :
    updatePost [] [] c7Requester "abc" c7Fields 0 = (UpdateResult.invalidId, []) ∧
    UpdateResult.invalidId ≠ UpdateResult.notFound := by
  refine ⟨rfl, ?_⟩
  decide

/-- C8: a successful view — by id or by slug, for any requester
including the author — returns the matched post with its view counter
incremented by exactly 1 and stores that incremented document; a failed
view (NotFound) leaves the collection unchanged. -/
theorem c8_view_increment (db : DB) (requester : Option UserT) (identifier : String)
    (now : Nat) :
    ((getPost db requester identifier now).1 = GetResult.notFound →
      (getPost db requester identifier now).2 = db) ∧
    (∀ p, (getPost db requester identifier now).1 = GetResult.ok p →
      ∃ q, findFirst (getPostQueryPred requester identifier) db = some q ∧
        p = { q with views := q.views + 1 } ∧
        (getPost db requester identifier now).2 = storeSaved p db) :=
  ⟨getPost_notFound_frame db requester identifier now,
   fun p => getPost_ok_characterization db requester identifier now p⟩

/-- Witness for C8: an anonymous view of a concrete published post
yields the post with views 1 and stores it. -/
theorem c8_view_increment_witness :
    (getPost [c8Post] none "aaaaaaaaaaaaaaaaaaaaaaaa" 5).1 =
      GetResult.ok { c8Post with views := 1 } ∧
    (getPost [c8Post] none "aaaaaaaaaaaaaaaaaaaaaaaa" 5).2 =
      storeSaved { c8Post with views := 1 } [c8Post] := by
  have h := (c8_view_increment [c8Post] none "aaaaaaaaaaaaaaaaaaaaaaaa" 5).2
    { c8Post with views := 1 } rfl
  obtain ⟨q, hq, hp, hdb⟩ := h
  exact ⟨rfl, hdb⟩

/-- C1 (amended): draft visibility is decided by the admin role alone.
A non-admin requester — anonymous, a stranger, or the post's own author —
only ever receives published posts from view (anything else is
NotFound) and, when listing without an explicit status filter, only
published posts match; an admin's view query carries no status
constraint, and an admin list without a status filter matches posts of
every status; an explicit status filter is applied verbatim for every
requester, so listing with status draft returns drafts even to anonymous
callers. -/
theorem c1_draft_visibility :
    (∀ (db : DB) (requester : Option UserT) (identifier : String) (now : Nat) (p : Post),
      isAdminReq requester = false →
      (getPost db requester identifier now).1 = GetResult.ok p →
      p.status = Status.published) ∧
    (∀ (requester : Option UserT) (q : PostsQuery) (p : Post),
      isAdminReq requester = false → q.status = none →
      getPostsQueryPred requester q p = true → p.status = Status.published) ∧
    (∀ (requester : Option UserT) (identifier : String) (p : Post),
      isAdminReq requester = true →
      getPostQueryPred requester identifier p =
        (if isValidObjectId identifier then p.id == identifier
         else p.slug == identifier)) ∧
    (∀ (requester : Option UserT) (q : PostsQuery) (p : Post) (s : Status),
      isAdminReq requester = true → q.status = none →
      getPostsQueryPred requester q { p with status := s } =
        getPostsQueryPred requester q p) ∧
    (∀ (r1 r2 : Option UserT) (q : PostsQuery) (p : Post) (s : Status),
      q.status = some s →
      getPostsQueryPred r1 q p = getPostsQueryPred r2 q p) := by
  refine ⟨?_, ?_, ?_, ?_, ?_⟩
  · intro db requester identifier now p hadm hok
    obtain ⟨q, hfind, hp, _⟩ :=
      getPost_ok_characterization db requester identifier now p hok
    have hpred : getPostQueryPred requester identifier q = true :=
      List.find?_some hfind
    unfold getPostQueryPred at hpred
    rw [hadm] at hpred
    rw [Bool.and_eq_true] at hpred
    have : q.status = Status.published := by
      have h2 := hpred.2
      simp at h2
      exact h2
    rw [hp]
    exact this
  · intro requester q p hadm hst hpred
    unfold getPostsQueryPred at hpred
    rw [hst, hadm] at hpred
    rw [Bool.and_eq_true, Bool.and_eq_true, Bool.and_eq_true] at hpred
    have h2 := hpred.1.1.1
    simp at h2
    exact h2
  · intro requester identifier p hadm
    unfold getPostQueryPred
    rw [hadm]
    simp
  · intro requester q p s hadm hst
    unfold getPostsQueryPred
    rw [hst, hadm]
    rfl
  · intro r1 r2 q p s hst
    unfold getPostsQueryPred
    rw [hst]

/-- C1 counterexample to the claim as stated: the post is a draft, the
requester is its author (a non-admin), yet view answers NotFound instead
of returning the post. -/
theorem c1_draft_visibility_counterexample :
    c1Draft.status = Status.draft ∧
    c1Draft.author = c1Author.id ∧
    c1Author.role ≠ Role.admin ∧
    (getPost [c1Draft] (some c1Author) "aaaaaaaaaaaaaaaaaaaaaaaa" 5).1 =
      GetResult.notFound := by
  refine ⟨rfl, rfl, ?_, rfl⟩
  decide

/-- Witness for C1: the post a concrete anonymous view returns is
published. -/
theorem c1_draft_visibility_witness :
    ({ c1Pub with views := 1 } : Post).status = Status.published :=
  c1_draft_visibility.1 [c1Pub] none "cccccccccccccccccccccccc" 5
    { c1Pub with views := 1 } rfl rfl

/-- C3: a successful update that moves a post whose publishedAt is unset
into the published status stamps publishedAt with the current time; a
successful update of a post whose publishedAt is already set never
changes it, whatever the update does to status; and a failed update
leaves the whole collection — publishedAt included — unchanged. -/
theorem c3_publishedAt_stamping (db : DB) (cats : List String) (u : UserT)
    (id : String) (f : UpdateFields) (now : Nat) (post p2 : Post) (db2 : DB)
    (hfind : List.find? (fun q => q.id == id) db = some post)
    (hok : updatePost db cats u id f now = (UpdateResult.ok p2, db2)) :
    (post.publishedAt = none → f.status = some Status.published →
      post.status ≠ Status.published → p2.publishedAt = some now) ∧
    (∀ t, post.publishedAt = some t → p2.publishedAt = some t) ∧
    (∀ (res : UpdateResult) (db3 : DB) (g : UpdateFields) (m : Nat),
      updatePost db cats u id g m = (res, db3) →
      (∀ r, res ≠ UpdateResult.ok r) → db3 = db) := by
  obtain ⟨post2, hfind2, happly⟩ := updatePost_ok_inv db cats u id f now p2 db2 hok
  rw [hfind] at hfind2
  injection hfind2 with hpp
  subst hpp
  obtain ⟨hp2, hdb2⟩ := applyUpdate_ok_saved db post f now p2 db2 happly
  refine ⟨?_, ?_, ?_⟩
  · intro hnone hfs hne
    rw [hp2, hfs]
    dsimp only
    have hsm : (Status.published != post.status) = true := by
      simp only [bne_iff_ne, ne_eq]
      exact fun he => hne he.symm
    rw [hsm]
    apply preSaveHook_stamps
    · rfl
    · exact hnone
  · intro t ht
    rw [hp2]
    apply preSaveHook_publishedAt_of_some
    exact ht
  · intro res db3 g m h hfail
    exact updatePost_failure_frame db cats u id g m res db3 h hfail

/-- Witness for C3: publishing the concrete draft at time 42 stamps
publishedAt with 42. -/
theorem c3_publishedAt_stamping_witness :
    c3Draft.publishedAt = none ∧ c3Updated.publishedAt = some 42 :=
  ⟨rfl,
   (c3_publishedAt_stamping [c3Draft] [] c3Author "aaaaaaaaaaaaaaaaaaaaaaaa" c3Fields 42
     c3Draft c3Updated [c3Updated] rfl rfl).1 rfl rfl (by decide)⟩

/-- C4 (amended): the slug is derived from the title (lowercased,
non-alphanumeric runs hyphenated, outer hyphens trimmed) at the first
save; while the stored slug is empty — which happens exactly when the
title has no lowercase-letter or digit characters — a later
title-modifying update re-derives it, but once the slug is nonempty no
operation (update, view, like toggle, comment) ever changes it. -/
theorem c4_slug_generation :
    (∀ (db : DB) (cats : List String) (u : UserT) (f : CreateFields) (nid : String)
      (now : Nat) (p : Post) (db2 : DB),
      createPost db cats u f nid now = (CreateResult.ok p, db2) →
      p.slug = slugify f.title) ∧
    (∀ (db : DB) (cats : List String) (u : UserT) (id : String) (f : UpdateFields)
      (now : Nat) (post p2 : Post) (db2 : DB),
      List.find? (fun q => q.id == id) db = some post →
      updatePost db cats u id f now = (UpdateResult.ok p2, db2) →
      post.slug ≠ "" → p2.slug = post.slug) ∧
    (∀ (db : DB) (requester : Option UserT) (identifier : String) (now : Nat) (q : Post),
      q ∈ (getPost db requester identifier now).2 → ∃ q0 ∈ db, q.slug = q0.slug) ∧
    (∀ (db : DB) (u : UserT) (id : String) (now : Nat) (q : Post),
      q ∈ (toggleLike db u id now).2 → ∃ q0 ∈ db, q.slug = q0.slug) ∧
    (∀ (db : DB) (u : UserT) (id content : String) (now : Nat) (q : Post),
      q ∈ (addComment db u id content now).2 → ∃ q0 ∈ db, q.slug = q0.slug) := by
  refine ⟨?_, ?_, ?_, ?_, ?_⟩
  · intro db cats u f nid now p db2 h
    exact (createPost_ok_inv db cats u f nid now p db2 h).1
  · intro db cats u id f now post p2 db2 hfind hok hslug
    obtain ⟨post2, hfind2, happly⟩ := updatePost_ok_inv db cats u id f now p2 db2 hok
    rw [hfind] at hfind2
    injection hfind2 with hpp
    subst hpp
    obtain ⟨hp2, hdb2⟩ := applyUpdate_ok_saved db post f now p2 db2 happly
    rw [hp2]
    exact preSaveHook_slug_of_ne _ _ now _ hslug
  · intro db requester identifier now q hq
    rcases getPost_db_mem db requester identifier now q hq with hmem | ⟨post, hfind, hsaved⟩
    · exact ⟨q, hmem, rfl⟩
    · exact ⟨post, List.mem_of_find?_eq_some hfind, by rw [hsaved]; rfl⟩
  · intro db u id now q hq
    rcases toggleLike_db_mem db u id now q hq with hmem | ⟨post, hfind, hsaved⟩
    · exact ⟨q, hmem, rfl⟩
    · refine ⟨post, List.mem_of_find?_eq_some hfind, ?_⟩
      rw [hsaved]
      exact toggleLikeOnPost_slug u.id now post
  · intro db u id content now q hq
    rcases addComment_db_mem db u id content now q hq with hmem | ⟨post, hfind, hsaved⟩
    · exact ⟨q, hmem, rfl⟩
    · exact ⟨post, List.mem_of_find?_eq_some hfind, by rw [hsaved]; rfl⟩

/-- C4 counterexample to the claim as stated: a post whose title has no
alphanumeric characters gets the empty slug at first save, and a later
title-editing update re-derives the slug — so the slug is not generated
exactly once and is changed by a later operation. -/
theorem c4_slug_generation_counterexample :
    createPost [] [] c4Author c4Create "aaaaaaaaaaaaaaaaaaaaaaaa" 3 =
      (CreateResult.ok c4First, [c4First]) ∧
    c4First.slug = "" ∧
    updatePost [c4First] [] c4Author "aaaaaaaaaaaaaaaaaaaaaaaa" c4Upd 9 =
      (UpdateResult.ok c4Second, [c4Second]) ∧
    c4Second.slug = "updated-title-now" ∧
    c4Second.slug ≠ c4First.slug := by
  refine ⟨rfl, rfl, rfl, rfl, ?_⟩
  decide

/-- Witness for C4: retitling a concrete post with a nonempty slug
leaves the slug unchanged. -/
theorem c4_slug_generation_witness : c4PostAfter.slug = c4Post.slug :=
  c4_slug_generation.2.1 [c4Post] [] c4Author "cccccccccccccccccccccccc" c4PostUpd 9
    c4Post c4PostAfter [c4PostAfter] rfl rfl (by decide)

theorem toggleLikeOnPost_of_not_any (uid : String) (now : Nat) (p : Post)
    (h : p.likes.any (fun like => like.user == uid) = false) :
    toggleLikeOnPost uid now p =
      ({ p with likes := p.likes ++ [({ user := uid, createdAt := now } : Like)] },
        p.likes.length + 1, true) := by
  have hnlt : ¬ (List.findIdx (fun like => like.user == uid) p.likes < p.likes.length) := by
    rw [findIdx_lt_iff_any]
    simp [h]
  unfold toggleLikeOnPost
  dsimp only
  rw [if_neg hnlt, Prod.mk.injEq, Prod.mk.injEq]
  refine ⟨rfl, ?_, rfl⟩
  rw [List.length_append]
  rfl

theorem toggleLikeOnPost_of_any (uid : String) (now : Nat) (p : Post)
    (h : p.likes.any (fun like => like.user == uid) = true) :
    toggleLikeOnPost uid now p =
      ({ p with likes := p.likes.eraseIdx (List.findIdx (fun like => like.user == uid) p.likes) },
        p.likes.length - 1, false) := by
  have hlt := (findIdx_lt_iff_any _ p.likes).mpr h
  unfold toggleLikeOnPost
  dsimp only
  rw [if_pos hlt, Prod.mk.injEq, Prod.mk.injEq]
  refine ⟨rfl, ?_, rfl⟩
  rw [List.length_eraseIdx, if_pos hlt]

/-- C2: on a like state respecting the at-most-one-entry-per-user
invariant, toggleLike flips the requester's like: it reports the flipped
state, returns the new likeCount and the new isLiked of the resulting
post, removes the requester's entry when one exists (count drops by one,
the remaining entries are a sublist, the requester no longer likes) and
appends exactly one entry otherwise; toggling twice returns the original
likeCount and reports the original isLiked state. -/
theorem c2_toggle_like (p : Post) (u : UserT) (now now2 : Nat)
    (hinv : likesUnique p) :
    ((toggleLikeOnPost u.id now p).2.2 = !(isLikedByUser p u.id)) ∧
    ((toggleLikeOnPost u.id now p).2.1 = likeCount (toggleLikeOnPost u.id now p).1) ∧
    ((toggleLikeOnPost u.id now p).2.2 =
      isLikedByUser (toggleLikeOnPost u.id now p).1 u.id) ∧
    (isLikedByUser p u.id = true →
      likeCount (toggleLikeOnPost u.id now p).1 + 1 = likeCount p ∧
      (toggleLikeOnPost u.id now p).1.likes.Sublist p.likes ∧
      isLikedByUser (toggleLikeOnPost u.id now p).1 u.id = false) ∧
    (isLikedByUser p u.id = false →
      (toggleLikeOnPost u.id now p).1.likes =
        p.likes ++ [({ user := u.id, createdAt := now } : Like)]) ∧
    (likeCount (toggleLikeOnPost u.id now2 (toggleLikeOnPost u.id now p).1).1 =
      likeCount p ∧
     (toggleLikeOnPost u.id now2 (toggleLikeOnPost u.id now p).1).2.2 =
      isLikedByUser p u.id) := by
  have hpe : ((fun like => like.user == u.id) ({ user := u.id, createdAt := now } : Like))
      = true := by simp
  simp only [isLikedByUser, likeCount]
  cases hliked : p.likes.any (fun like => like.user == u.id) with
  | false =>
    rw [toggleLikeOnPost_of_not_any u.id now p hliked]
    dsimp only
    have hany2 : (p.likes ++ [({ user := u.id, createdAt := now } : Like)]).any
        (fun like => like.user == u.id) = true := by
      rw [List.any_append]
      simp [hpe]
    have hlt2 := (findIdx_lt_iff_any (fun like => like.user == u.id)
      (p.likes ++ [({ user := u.id, createdAt := now } : Like)])).mpr hany2
    rw [toggleLikeOnPost_of_any u.id now2 _ hany2]
    dsimp only
    refine ⟨rfl, ?_, hany2.symm, ?_, fun _ => rfl, ?_, rfl⟩
    · rw [List.length_append]
      rfl
    · intro hcontra
      simp at hcontra
    · rw [List.length_eraseIdx, if_pos hlt2, List.length_append]
      simp
  | true =>
    have hlt := (findIdx_lt_iff_any (fun like => like.user == u.id) p.likes).mpr hliked
    have hE : (p.likes.eraseIdx
        (List.findIdx (fun like => like.user == u.id) p.likes)).any
        (fun like => like.user == u.id) = false :=
      eraseIdx_findIdx_any_false u.id p.likes hinv
    rw [toggleLikeOnPost_of_any u.id now p hliked]
    dsimp only
    rw [toggleLikeOnPost_of_not_any u.id now2 _ hE]
    dsimp only
    have hlen : (p.likes.eraseIdx
        (List.findIdx (fun like => like.user == u.id) p.likes)).length
        = p.likes.length - 1 := by
      rw [List.length_eraseIdx, if_pos hlt]
    refine ⟨rfl, ?_, hE.symm, ?_, ?_, ?_, rfl⟩
    · rw [hlen]
    · intro _
      refine ⟨?_, List.eraseIdx_sublist _ _, hE⟩
      rw [hlen]
      omega
    · intro hcontra
      simp at hcontra
    · simp only [List.length_append, hlen, List.length_singleton]
      omega

/-- Witness for C2: toggling twice on a concrete post restores the
original count and liked state. -/
theorem c2_toggle_like_witness :
    likeCount (toggleLikeOnPost c2User.id 9
      (toggleLikeOnPost c2User.id 7 c2Post).1).1 = likeCount c2Post ∧
    (toggleLikeOnPost c2User.id 9 (toggleLikeOnPost c2User.id 7 c2Post).1).2.2 =
      isLikedByUser c2Post c2User.id :=
  (c2_toggle_like c2Post c2User 7 9 (by simp [likesUnique, c2Post])).2.2.2.2.2
theorem toggleLikeOnPost_nodup (uid : String) (now : Nat) (p : Post)
    (h : likesUnique p) : likesUnique (toggleLikeOnPost uid now p).1 := by
  unfold likesUnique
  cases hany : p.likes.any (fun like => like.user == uid) with
  | true =>
    rw [toggleLikeOnPost_of_any uid now p hany]
    exact nodup_eraseIdx _ _ h
  | false =>
    rw [toggleLikeOnPost_of_not_any uid now p hany]
    exact nodup_toggle_append uid now p.likes h hany

/-- C5: likeCount and commentCount are the live lengths of the embedded
lists (they are virtuals, with no stored counter field); a like state
respecting the invariant has at most one entry per user; a freshly
created post has empty like and comment lists; and every operation —
like toggling, updating, commenting, viewing, creating — preserves the
at-most-one-Like-per-user invariant across the whole collection. -/
theorem c5_live_counts_unique_likes :
    (∀ p : Post, likeCount p = p.likes.length ∧ commentCount p = p.comments.length) ∧
    (∀ (p : Post) (uid : String), likesUnique p →
      (p.likes.filter (fun l => l.user == uid)).length ≤ 1) ∧
    (∀ (db : DB) (cats : List String) (u : UserT) (f : CreateFields) (nid : String)
      (now : Nat) (p : Post) (db2 : DB),
      createPost db cats u f nid now = (CreateResult.ok p, db2) →
      p.likes = [] ∧ p.comments = []) ∧
    (∀ (p : Post) (uid : String) (now : Nat), likesUnique p →
      likesUnique (toggleLikeOnPost uid now p).1) ∧
    (∀ (db : DB) (u : UserT) (id : String) (now : Nat),
      (∀ q ∈ db, likesUnique q) → ∀ q ∈ (toggleLike db u id now).2, likesUnique q) ∧
    (∀ (db : DB) (cats : List String) (u : UserT) (id : String) (f : UpdateFields)
      (now : Nat), (∀ q ∈ db, likesUnique q) →
      ∀ q ∈ (updatePost db cats u id f now).2, likesUnique q) ∧
    (∀ (db : DB) (u : UserT) (id content : String) (now : Nat),
      (∀ q ∈ db, likesUnique q) → ∀ q ∈ (addComment db u id content now).2, likesUnique q) ∧
    (∀ (db : DB) (requester : Option UserT) (identifier : String) (now : Nat),
      (∀ q ∈ db, likesUnique q) →
      ∀ q ∈ (getPost db requester identifier now).2, likesUnique q) ∧
    (∀ (db : DB) (cats : List String) (u : UserT) (f : CreateFields) (nid : String)
      (now : Nat), (∀ q ∈ db, likesUnique q) →
      ∀ q ∈ (createPost db cats u f nid now).2, likesUnique q) := by
  refine ⟨fun p => ⟨rfl, rfl⟩, ?_, ?_,
    fun p uid now => toggleLikeOnPost_nodup uid now p, ?_, ?_, ?_, ?_, ?_⟩
  · intro p uid h
    have hcount := List.nodup_iff_count_le_one.mp h uid
    rw [List.count_eq_countP, List.countP_eq_length_filter, List.filter_map,
      List.length_map] at hcount
    exact hcount
  · intro db cats u f nid now p db2 h
    exact ⟨(createPost_ok_inv db cats u f nid now p db2 h).2.1,
      (createPost_ok_inv db cats u f nid now p db2 h).2.2.1⟩
  · intro db u id now hdb q hq
    rcases toggleLike_db_mem db u id now q hq with hmem | ⟨post, hfind, hsaved⟩
    · exact hdb q hmem
    · rw [hsaved]
      unfold likesUnique
      rw [preSaveHook_likes]
      exact toggleLikeOnPost_nodup u.id now post (hdb post (List.mem_of_find?_eq_some hfind))
  · intro db cats u id f now hdb q hq
    rcases updatePost_db_mem db cats u id f now q hq with hmem | ⟨post, hfind, hlikes⟩
    · exact hdb q hmem
    · unfold likesUnique
      rw [hlikes]
      exact hdb post (List.mem_of_find?_eq_some hfind)
  · intro db u id content now hdb q hq
    rcases addComment_db_mem db u id content now q hq with hmem | ⟨post, hfind, hsaved⟩
    · exact hdb q hmem
    · rw [hsaved]
      unfold likesUnique
      rw [preSaveHook_likes]
      exact hdb post (List.mem_of_find?_eq_some hfind)
  · intro db requester identifier now hdb q hq
    rcases getPost_db_mem db requester identifier now q hq with hmem | ⟨post, hfind, hsaved⟩
    · exact hdb q hmem
    · rw [hsaved]
      unfold likesUnique
      rw [preSaveHook_likes]
      exact hdb post (List.mem_of_find?_eq_some hfind)
  · intro db cats u f nid now hdb q hq
    rcases createPost_db_mem db cats u f nid now q hq with hmem | ⟨hlikes, _⟩
    · exact hdb q hmem
    · unfold likesUnique
      rw [hlikes]
      exact List.nodup_nil

/-- Witness for C5: the concrete one-like post satisfies the per-user
bound and toggling preserves uniqueness of its liking users. -/
theorem c5_live_counts_unique_likes_witness :
    (c5Post.likes.filter (fun l => l.user == "eeeeeeeeeeeeeeeeeeeeeeee")).length ≤ 1 ∧
    likesUnique (toggleLikeOnPost "dddddddddddddddddddddddd" 7 c5Post).1 :=
  ⟨c5_live_counts_unique_likes.2.1 c5Post "eeeeeeeeeeeeeeeeeeeeeeee"
    (by simp [likesUnique, c5Post]),
   c5_live_counts_unique_likes.2.2.2.1 c5Post "dddddddddddddddddddddddd" 7
    (by simp [likesUnique, c5Post])⟩
theorem insertSorted_length (le : Post → Post → Bool) (p : Post) (l : List Post) :
    (insertSorted le p l).length = l.length + 1 := by
  induction l with
  | nil => rfl
  | cons q rest ih =>
    unfold insertSorted
    split
    · rfl
    · rw [List.length_cons, ih, List.length_cons]

theorem sortPosts_length (f : SortField) (o : SortOrder) (l : List Post) :
    (sortPosts f o l).length = l.length := by
  unfold sortPosts
  induction l with
  | nil => rfl
  | cons q rest ih =>
    rw [List.foldr_cons, insertSorted_length, ih, List.length_cons]

/-- C9: listPosts pagination is 1-indexed (the validator rejects page 0)
with default page 1 and default limit 10, the validator caps an explicit
limit at 100, the response carries the full pagination object
(currentPage, totalPages, total count, hasNextPage, hasPrevPage, limit),
and on a result set of exactly 2 matched posts a page=2, limit=1 request
returns exactly the second post of the sorted order with
hasNextPage=false and hasPrevPage=true. -/
theorem c9_pagination :
    (∀ (db : DB) (r : Option UserT) (q : PostsQuery), q.page = none →
      (getPosts db r q).2.currentPage = 1) ∧
    (∀ (db : DB) (r : Option UserT) (q : PostsQuery), q.limit = none →
      (getPosts db r q).2.limit = 10) ∧
    (∀ (q : PostsQuery) (n : Nat), getPostsValidation q = true → q.page = some n →
      1 ≤ n) ∧
    (∀ (q : PostsQuery) (n : Nat), getPostsValidation q = true → q.limit = some n →
      1 ≤ n ∧ n ≤ 100) ∧
    (∀ (db : DB) (r : Option UserT) (q : PostsQuery),
      (getPosts db r q).2 =
        { currentPage := q.page.getD 1
          totalPages := ((db.filter (getPostsQueryPred r q)).length + q.limit.getD 10 - 1)
            / q.limit.getD 10
          totalPosts := (db.filter (getPostsQueryPred r q)).length
          hasNextPage := decide (q.page.getD 1 <
            ((db.filter (getPostsQueryPred r q)).length + q.limit.getD 10 - 1)
              / q.limit.getD 10)
          hasPrevPage := decide (q.page.getD 1 > 1)
          limit := q.limit.getD 10 }) ∧
    (∀ (db : DB) (r : Option UserT) (q : PostsQuery),
      q.page = some 2 → q.limit = some 1 →
      (db.filter (getPostsQueryPred r q)).length = 2 →
      ∃ a b, sortPosts (q.sortBy.getD SortField.createdAt) (q.sortOrder.getD SortOrder.desc)
          (List.filter (getPostsQueryPred r q) db) = [a, b] ∧
        (getPosts db r q).1 = [b] ∧
        (getPosts db r q).2.hasNextPage = false ∧
        (getPosts db r q).2.hasPrevPage = true ∧
        (getPosts db r q).2.totalPosts = 2) := by
  refine ⟨?_, ?_, ?_, ?_, ?_, ?_⟩
  · intro db r q hp
    unfold getPosts
    dsimp only
    rw [hp]
    rfl
  · intro db r q hl
    unfold getPosts
    dsimp only
    rw [hl]
    rfl
  · intro q n hval hp
    unfold getPostsValidation at hval
    rw [hp] at hval
    rw [Bool.and_eq_true, Bool.and_eq_true, Bool.and_eq_true] at hval
    have := hval.1.1.1
    simpa using this
  · intro q n hval hl
    unfold getPostsValidation at hval
    rw [hl] at hval
    rw [Bool.and_eq_true, Bool.and_eq_true, Bool.and_eq_true] at hval
    have := hval.1.1.2
    rw [Bool.and_eq_true] at this
    exact ⟨by simpa using this.1, by simpa using this.2⟩
  · intro db r q
    rfl
  · intro db r q hp hl hm
    have hslen : (sortPosts (q.sortBy.getD SortField.createdAt)
        (q.sortOrder.getD SortOrder.desc)
        (List.filter (getPostsQueryPred r q) db)).length = 2 := by
      rw [sortPosts_length]
      exact hm
    obtain ⟨a, b, hab⟩ := List.length_eq_two.mp hslen
    refine ⟨a, b, hab, ?_, ?_, ?_, ?_⟩
    · unfold getPosts
      dsimp only
      rw [hp, hl, hab]
      rfl
    · unfold getPosts
      dsimp only
      rw [hp, hl, hm]
      rfl
    · unfold getPosts
      dsimp only
      rw [hp]
      rfl
    · unfold getPosts
      dsimp only
      rw [hm]

/-- Witness for C9: on the concrete 2-post collection, page 2 with
limit 1 returns exactly the older post (the second in descending
createdAt order), with hasNextPage false and hasPrevPage true. -/
theorem c9_pagination_witness :
    (getPosts [c9A, c9B] none c9Query).1 = [c9A] ∧
    (getPosts [c9A, c9B] none c9Query).2.hasNextPage = false ∧
    (getPosts [c9A, c9B] none c9Query).2.hasPrevPage = true := by
  obtain ⟨a, b, hab, h1, h2, h3, _⟩ :=
    c9_pagination.2.2.2.2.2 [c9A, c9B] none c9Query rfl rfl rfl
  have hsort : sortPosts (c9Query.sortBy.getD SortField.createdAt)
      (c9Query.sortOrder.getD SortOrder.desc)
      (List.filter (getPostsQueryPred none c9Query) [c9A, c9B]) = [c9B, c9A] := rfl
  rw [hsort] at hab
  injection hab with ha hrest
  injection hrest with hb _
  subst ha
  subst hb
  exact ⟨h1, h2, h3⟩

end Blog
